import Mathlib

/-!
Shallow embedding of the "Juleklapp Losverteilung" server (the full deployment,
`src/unnamed/part_000`, and the reduced deployment, `src/server.js`).

Modelling conventions:
* JavaScript `Map` objects are modelled as association lists (insertion order,
  unique keys in reachable states); `Map.set` on an existing key updates it in
  place, `Map.get`/`Map.has` find the first matching key.
* JavaScript string truthiness (`if (s)`, `s || t`) is modelled explicitly:
  `null` and the empty string are falsy.
* `Math.random`-driven shuffling is modelled by passing the sequence of drawn
  swap indices explicitly: `rand attempt` is the list of `j` values used by the
  Fisher-Yates loop during the given attempt.
* `localeCompare(..., 'de')` sorting is modelled by insertion sort over the
  code-point lexicographic order; every claim only depends on the sorted
  list being a permutation of its input, never on the precise order.
* String primitives (`toLowerCase`, `trim`, `split`) are modelled over the
  character list of the string, so every definition evaluates inside the
  kernel; `toLowerCase` is modelled on the ASCII range.
* File-system reads are modelled by passing the optional file content as a
  parameter (`none` models an absent file, which the source turns into an
  empty result via `try/catch`).
* Side effects outside the registry (e-mail delivery, writing `Lose.txt`,
  console logging) are out of the modelled state, as they never feed back into
  the registry.
-/

namespace Losverteilung

/-- ASCII lowering of one character, the effect of `toLowerCase()` on the
ASCII range (all names the claims exercise are ASCII). -/
def charLower (c : Char) : Char :=
  if 65 ≤ c.toNat ∧ c.toNat ≤ 90 then Char.ofNat (c.toNat + 32) else c

/-- Model of `s.toLowerCase()`, via the character list so the kernel can
evaluate it. -/
def strLower (s : String) : String :=
  ⟨s.data.map charLower⟩

/-- Model of `s.trim()`: drop whitespace from both ends. -/
def strTrim (s : String) : String :=
  ⟨((s.data.dropWhile Char.isWhitespace).reverse.dropWhile Char.isWhitespace).reverse⟩

/-- Division of a character list at every separator, keeping empty segments,
matching the semantics of `String.prototype.split` with a one-character
separator. -/
def splitChars (p : Char → Bool) : List Char → List (List Char)
  | [] => [[]]
  | c :: cs =>
      let r := splitChars p cs
      if p c then [] :: r
      else
        match r with
        | [] => [[c]]
        | g :: gs => (c :: g) :: gs

/-- Model of `s.split(sep)` for a one-character separator test. -/
def strSplit (s : String) (p : Char → Bool) : List String :=
  (splitChars p s.data).map (fun l => ⟨l⟩)

/-- JS string truthiness for a `string | null` value: `null` and `""` are falsy. -/
def optTruthy : Option String → Bool
  | none => false
  | some s => !s.isEmpty

/-- Association-list lookup, modelling `Map.get` (first matching key). -/
def alookup {κ α : Type} [DecidableEq κ] : List (κ × α) → κ → Option α
  | [], _ => none
  | (k, v) :: rest, key => if k = key then some v else alookup rest key

/-- Modelling `Map.set`: update the first matching key in place, else append. -/
def alSet {κ α : Type} [DecidableEq κ] : List (κ × α) → κ → α → List (κ × α)
  | [], key, v => [(key, v)]
  | (k, w) :: rest, key, v =>
      if k = key then (k, v) :: rest else (k, w) :: alSet rest key v

/-- Modelling in-place mutation of the value stored under a key. -/
def alUpdate {κ α : Type} [DecidableEq κ] : List (κ × α) → κ → (α → α) → List (κ × α)
  | [], _, _ => []
  | (k, v) :: rest, key, f =>
      if k = key then (k, f v) :: alUpdate rest key f
      else (k, v) :: alUpdate rest key f

/-- Swap two positions of a list; identity when an index is out of bounds.
JS never produces an out-of-bounds index here, since
`Math.floor(Math.random() * (i + 1))` lies in `[0, i]`. -/
def listSwap {α : Type} (l : List α) (i j : Nat) : List α :=
  match l[i]?, l[j]? with
  | some x, some y => (l.set i y).set j x
  | _, _ => l

/-- The Fisher-Yates loop of `shuffle` for `i` from the current index down to 1,
consuming one random index per step. -/
def shuffleAux {α : Type} : List α → Nat → List Nat → List α
  | l, 0, _ => l
  | l, _ + 1, [] => l
  | l, i + 1, j :: js => shuffleAux (listSwap l (i + 1) j) i js

/-- `shuffle(array)` from the source, with the random draws made explicit. -/
def shuffle {α : Type} (l : List α) (js : List Nat) : List α :=
  shuffleAux l (l.length - 1) js

/-- Lexicographic comparison of character lists via code points. -/
def charListLe : List Char → List Char → Bool
  | [], _ => true
  | _ :: _, [] => false
  | a :: as, b :: bs =>
      if a.toNat < b.toNat then true
      else if b.toNat < a.toNat then false
      else charListLe as bs

/-- Boolean lexicographic order on strings, standing in for the locale-aware
comparator; the claims only use that sorting permutes its input. -/
def strLeB (a b : String) : Bool :=
  charListLe a.data b.data

/-- Insertion step for the model of locale-aware sorting. -/
def insertLe (x : String) : List String → List String
  | [] => [x]
  | y :: ys => if strLeB x y then x :: y :: ys else y :: insertLe x ys

/-- Model of `names.sort((a, b) => a.localeCompare(b, 'de'))`. -/
def sortDe (l : List String) : List String :=
  l.foldr insertLe []

/-- Is there a `'.'` at a position other than the last one of the list? -/
def dotBeforeLast : List Char → Bool
  | c :: d :: rest => c = '.' || dotBeforeLast (d :: rest)
  | _ => false

/-- The e-mail shape check `/^[^\s@]+@[^\s@]+\.[^\s@]+$/` from `isValidEmail`:
no whitespace anywhere, exactly one `@` with a nonempty local part, and a
domain that decomposes as nonempty text, a dot, and nonempty text — by
backtracking, the character class `[^\s@]` admits further dots on either side
of the matched one, so the condition is exactly a dot that is neither the
first nor the last character of the domain. -/
def isValidEmail (s : String) : Bool :=
  if s.data.any (fun c => c.isWhitespace) then false
  else
    match strSplit s (· = '@') with
    | [loc, dom] =>
        if loc.isEmpty then false
        else
          match dom.data with
          | [] => false
          | _ :: rest => dotBeforeLast rest
    | _ => false

/-- A live connection's identity slot:
`participants: Map<ws, { name, email, sessionId }>`. -/
structure ConnInfo where
  name : Option String
  email : Option String
  sessionId : String
deriving DecidableEq, Repr

/-- A durable session record:
`sessions: Map<sessionId, { name, email, target }>`. -/
structure Session where
  name : String
  email : String
  target : Option String
deriving DecidableEq, Repr

/-- One row of the `getAllParticipants()` projection. -/
structure PartView where
  name : String
  email : String
  online : Bool
deriving DecidableEq, Repr

/-- The whole registry state shared by every connection handler. -/
structure ServerState where
  participants : List (Nat × ConnInfo)
  masters : List Nat
  sessions : List (String × Session)
deriving DecidableEq, Repr

/-- Server-to-client messages of the wire protocol. -/
inductive Msg where
  | participants (names : List String) (withEmail : List PartView)
  | nameOk (name : String) (sessionId : Option String)
  | error (message : String)
  | reset
  | yourTarget (target : String)
  | drawComplete
deriving DecidableEq, Repr

/-- Client-to-server messages; `other` covers unknown or ill-typed frames,
which fall through every handler branch. -/
inductive ClientMsg where
  | setName (name email : String)
  | removeName (name : String)
  | startDraw
  | other
deriving DecidableEq, Repr

/-- Response of `GET /api/session/:sessionId`. -/
inductive ApiResp where
  | ok (name email : String) (target : Option String)
  | notFound
deriving DecidableEq, Repr

/-- The truthy name of one live connection, as collected by the first loop of
`getParticipantNames()`. -/
def onlineName (p : Nat × ConnInfo) : Option String :=
  match p.2.name with
  | some n => if n.isEmpty then none else some n
  | none => none

/-- The second loop of `getParticipantNames()`: append the name of an undrawn
session record unless it is already present case-insensitively. -/
def addOfflineName (acc : List String) (q : String × Session) : List String :=
  if !q.2.name.isEmpty && !q.2.email.isEmpty && !(optTruthy q.2.target) then
    if acc.any (fun n => strLower n = strLower q.2.name) then acc
    else acc ++ [q.2.name]
  else acc

/-- `getParticipantNames()`: truthy names of live connections, then names of
undrawn session records not already present case-insensitively, sorted. -/
def getParticipantNames (st : ServerState) : List String :=
  sortDe (st.sessions.foldl addOfflineName (st.participants.filterMap onlineName))

/-- Insertion step for sorting presence rows by display name. -/
def insertLeName (x : PartView) : List PartView → List PartView
  | [] => [x]
  | y :: ys => if strLeB x.name y.name then x :: y :: ys else y :: insertLeName x ys

/-- Model of `result.sort((a, b) => a.name.localeCompare(b.name, 'de'))`. -/
def sortDeViews (l : List PartView) : List PartView :=
  l.foldr insertLeName []

/-- `getAllParticipants()`: presence projection keyed by lowercased name. -/
def getAllParticipants (st : ServerState) : List PartView :=
  let m1 := st.participants.foldl (fun acc p =>
    match p.2.name, p.2.email with
    | some n, some e =>
        if !n.isEmpty && !e.isEmpty then alSet acc (strLower n) ⟨n, e, true⟩ else acc
    | _, _ => acc) ([] : List (String × PartView))
  let m2 := st.sessions.foldl (fun acc q =>
    if !q.2.name.isEmpty && !q.2.email.isEmpty && !(optTruthy q.2.target) then
      if (alookup acc (strLower q.2.name)).isSome then
        alUpdate acc (strLower q.2.name) (fun v => { v with online := true })
      else acc ++ [(strLower q.2.name, ⟨q.2.name, q.2.email, false⟩)]
    else acc) m1
  sortDeViews (m2.map (·.2))

/-- `isNameTaken(name)`: a truthy live-connection name or an undrawn session
record matching case-insensitively. -/
def isNameTaken (st : ServerState) (name : String) : Bool :=
  let nl := strLower name
  st.participants.any (fun p =>
    match p.2.name with
    | some n => !n.isEmpty && strLower n = nl
    | none => false)
  || st.sessions.any (fun q =>
    !q.2.name.isEmpty && strLower q.2.name = nl && !(optTruthy q.2.target))

/-- Strip one trailing carriage return, so that splitting on a line feed
models the source's split on the pattern carriage-return-optional line feed. -/
def stripCR (line : String) : String :=
  if line.data.getLast? = some '\r' then ⟨line.data.dropLast⟩ else line

/-- The line division performed by `raw.split(/\r?\n/)`. -/
def splitLines (raw : String) : List String :=
  (strSplit raw (· = '\n')).map stripCR

/-- One line of `readConstraintsFile`: skip blank and comment lines, require
exactly two comma-separated fields, trim them, drop empties, lowercase. -/
def parseConstraintLine (line : String) : Option (String × String) :=
  let trimmed := strTrim line
  if trimmed.isEmpty then none
  else if trimmed.data.head? = some '#' then none
  else
    match strSplit trimmed (· = ',') with
    | [p0, p1] =>
        if (strTrim p0).isEmpty then none
        else if (strTrim p1).isEmpty then none
        else some (strLower (strTrim p0), strLower (strTrim p1))
    | _ => none

/-- `readConstraintsFile()`: `none` content models an absent file, which the
`try/catch` turns into an empty list. -/
def readConstraintsFile (content : Option String) : List (String × String) :=
  match content with
  | none => []
  | some raw => (splitLines raw).filterMap parseConstraintLine

/-- `Set.add` on a set of strings, preserving insertion order. -/
def setAdd (l : List String) (x : String) : List String :=
  if l.contains x then l else l ++ [x]

/-- `buildBannedSet()`: the constraint pairs encoded as `giver|receiver`. -/
def buildBannedSet (content : Option String) : List String :=
  (readConstraintsFile content).foldl (fun acc pr => setAdd acc (pr.1 ++ "|" ++ pr.2)) []

/-- The per-position check of one derangement attempt in the full deployment. -/
def pairOk (banned : List String) (n p : String) : Bool :=
  !(p == n) && !(banned.contains (strLower n ++ "|" ++ strLower p))

/-- The validation loop of one attempt of `createDerangement`. -/
def attemptValid (names perm : List String) (banned : List String) : Bool :=
  (names.zip perm).all (fun pr => pairOk banned pr.1 pr.2)

/-- The attempt loop of `createDerangement`, with explicit fuel standing for
the remaining attempts out of the fixed ceiling of 1000. -/
def derangeLoop (names : List String) (banned : List String) (rand : Nat → List Nat) :
    Nat → Nat → Option (List (String × String))
  | _, 0 => none
  | attempt, fuel + 1 =>
      let perm := shuffle names (rand attempt)
      if attemptValid names perm banned then some (names.zip perm)
      else derangeLoop names banned rand (attempt + 1) fuel

/-- `createDerangement(names, bannedSet)` from the full deployment. -/
def createDerangement (names : List String) (banned : List String)
    (rand : Nat → List Nat) : Option (List (String × String)) :=
  if names.length < 2 then none
  else derangeLoop names banned rand 0 1000

/-- The per-position check of the reduced deployment (`src/server.js`), which
has no constraint set. -/
def attemptValidSimple (names perm : List String) : Bool :=
  (names.zip perm).all (fun pr => !(pr.2 == pr.1))

/-- The attempt loop of the reduced deployment's `createDerangement`. -/
def derangeLoopSimple (names : List String) (rand : Nat → List Nat) :
    Nat → Nat → Option (List (String × String))
  | _, 0 => none
  | attempt, fuel + 1 =>
      let perm := shuffle names (rand attempt)
      if attemptValidSimple names perm then some (names.zip perm)
      else derangeLoopSimple names rand (attempt + 1) fuel

/-- `createDerangement(names)` from the reduced deployment (`src/server.js`). -/
def createDerangementSimple (names : List String) (rand : Nat → List Nat) :
    Option (List (String × String)) :=
  if names.length < 2 then none
  else derangeLoopSimple names rand 0 1000

/-- The `participants` broadcast payload computed from the current state. -/
def participantsMsg (st : ServerState) : Msg :=
  let aps := getAllParticipants st
  Msg.participants (aps.map (·.name)) aps

/-- The `set_name` handler: validation chain, then bind the connection's
identity, create-or-update the session record keyed by the connection's
session id, confirm with `name_ok`, and broadcast to all masters. -/
def handleSetName (st : ServerState) (ws : Nat) (name email : String) :
    ServerState × List (Nat × Msg) :=
  let trimmed := strTrim name
  let trimmedEmail := strTrim email
  if trimmed.isEmpty then
    (st, [(ws, Msg.error "Name darf nicht leer sein.")])
  else if 40 < trimmed.length then
    (st, [(ws, Msg.error "Name ist zu lang (max. 40).")])
  else if trimmedEmail.isEmpty then
    (st, [(ws, Msg.error "E-Mail-Adresse darf nicht leer sein.")])
  else if !isValidEmail trimmedEmail then
    (st, [(ws, Msg.error "Ungültige E-Mail-Adresse.")])
  else if isNameTaken st trimmed then
    (st, [(ws, Msg.error "Name bereits vergeben. Bitte anderen wählen.")])
  else
    match alookup st.participants ws with
    | none => (st, [(ws, Msg.error "Ungültige Aktion.")])
    | some info =>
        let parts := alUpdate st.participants ws (fun i =>
          { i with name := some trimmed, email := some trimmedEmail })
        let sess :=
          if (alookup st.sessions info.sessionId).isSome then
            alUpdate st.sessions info.sessionId (fun s =>
              { s with name := trimmed, email := trimmedEmail })
          else st.sessions ++ [(info.sessionId, ⟨trimmed, trimmedEmail, none⟩)]
        let st1 : ServerState := { st with participants := parts, sessions := sess }
        (st1, (ws, Msg.nameOk trimmed (some info.sessionId)) ::
          st1.masters.map (fun mws => (mws, participantsMsg st1)))

/-- Does a live connection's (possibly null) name match the lowercased target? -/
def nameMatches (o : Option String) (tl : String) : Bool :=
  match o with
  | some s => !s.isEmpty && strLower s = tl
  | none => false

/-- The `remove_name` handler body (already role-guarded by the dispatcher):
clear and reset every matching live connection, delete every matching session
record, then broadcast. -/
def handleRemoveName (st : ServerState) (name : String) :
    ServerState × List (Nat × Msg) :=
  let tl := strLower (strTrim name)
  let resets := st.participants.filterMap (fun p =>
    if nameMatches p.2.name tl then some (p.1, Msg.reset) else none)
  let parts := st.participants.map (fun p =>
    if nameMatches p.2.name tl then (p.1, { p.2 with name := none, email := none }) else p)
  let sess := st.sessions.filter (fun q => !(!q.2.name.isEmpty && strLower q.2.name = tl))
  let st1 : ServerState := { st with participants := parts, sessions := sess }
  (st1, resets ++ st1.masters.map (fun mws => (mws, participantsMsg st1)))

/-- One step of the on-line loop of the `start_draw` handler, restricted to its
effect on the session store: a connection with a truthy name present in the
mapping writes the target into its session record, if that record exists.
The loop never adds or removes keys, so `sessions.has` over the evolving map
agrees with the source's check. -/
def drawOnlineStep (mapping : List (String × String)) (sess : List (String × Session))
    (p : Nat × ConnInfo) : List (String × Session) :=
  match p.2.name with
  | some nm =>
      if nm.isEmpty then sess
      else
        match alookup mapping nm with
        | some tgt =>
            if !p.2.sessionId.isEmpty && (alookup sess p.2.sessionId).isSome then
              alUpdate sess p.2.sessionId (fun s => { s with target := some tgt })
            else sess
        | none => sess
  | none => sess

/-- The session-store effect of the on-line loop of `start_draw`. -/
def onlineSessions (mapping : List (String × String)) (ps : List (Nat × ConnInfo))
    (sess : List (String × Session)) : List (String × Session) :=
  ps.foldl (drawOnlineStep mapping) sess

/-- The `your_target` messages of the on-line loop of `start_draw`; each one
depends only on the connection's identity and the mapping, so the message list
is computed independently of the evolving session store. -/
def onlineMsgs (mapping : List (String × String)) (ps : List (Nat × ConnInfo)) :
    List (Nat × Msg) :=
  ps.filterMap (fun p =>
    match p.2.name with
    | some nm =>
        if nm.isEmpty then none
        else (alookup mapping nm).map (fun tgt => (p.1, Msg.yourTarget tgt))
    | none => none)

/-- The off-line loop of `start_draw` on one session record: an undrawn record
with truthy name and e-mail whose name is in the mapping receives its target. -/
def offlineFix (mapping : List (String × String)) (s : Session) : Session :=
  if !s.name.isEmpty && !s.email.isEmpty && !(optTruthy s.target) then
    match alookup mapping s.name with
    | some tgt => { s with target := some tgt }
    | none => s
  else s

/-- The off-line loop of `start_draw` over the whole session store. -/
def offlinePass (mapping : List (String × String)) (sess : List (String × Session)) :
    List (String × Session) :=
  sess.map (fun q => (q.1, offlineFix mapping q.2))

/-- The `start_draw` handler body (already role-guarded by the dispatcher).
E-mail delivery and the `Lose.txt` write are external effects outside the
modelled state. -/
def handleStartDraw (st : ServerState) (ws : Nat) (banned : List String)
    (rand : Nat → List Nat) : ServerState × List (Nat × Msg) :=
  let names := getParticipantNames st
  if names.length < 2 then
    (st, [(ws, Msg.error "Mindestens 2 Teilnehmer nötig.")])
  else
    match createDerangement names banned rand with
    | none =>
        (st, [(ws, Msg.error "Konnte keine gültige Verteilung finden. Bitte erneut versuchen.")])
    | some mapping =>
        let sess1 := onlineSessions mapping st.participants st.sessions
        let sess2 := offlinePass mapping sess1
        let st1 : ServerState := { st with sessions := sess2 }
        (st1, onlineMsgs mapping st.participants ++
          st1.masters.map (fun mws => (mws, Msg.drawComplete)))

/-- The message dispatcher of the connection handler. The `set_name` branch is
not role-guarded in the source (a master socket fails its `participants.has`
check instead); `remove_name` and `start_draw` are guarded by
`role === 'master'`. `banned` is the constraint set loaded for a draw and
`rand` the random swap indices consumed by a draw. -/
def handleMessage (st : ServerState) (ws : Nat) (role : String) (msg : ClientMsg)
    (banned : List String) (rand : Nat → List Nat) : ServerState × List (Nat × Msg) :=
  match msg with
  | .setName n e => handleSetName st ws n e
  | .removeName n => if role = "master" then handleRemoveName st n else (st, [])
  | .startDraw => if role = "master" then handleStartDraw st ws banned rand else (st, [])
  | .other => (st, [])

/-- The connection-accept handler: a master is registered and receives the
current projection; a participant is bound to the session found via its cookie
(when any) and its pre-draw or post-draw state is restored. `freshSid` models
the value `generateSessionId()` would produce. -/
def handleConnect (st : ServerState) (ws : Nat) (role : String)
    (cookieSid : Option String) (freshSid : String) : ServerState × List (Nat × Msg) :=
  if role = "master" then
    ({ st with masters := st.masters ++ [ws] }, [(ws, participantsMsg st)])
  else
    let sessionData :=
      match cookieSid with
      | some sid => if !sid.isEmpty then alookup st.sessions sid else none
      | none => none
    let pd : ConnInfo :=
      { name := match sessionData with
          | some s => if s.name.isEmpty then none else some s.name
          | none => none
        email := match sessionData with
          | some s => if s.email.isEmpty then none else some s.email
          | none => none
        sessionId := match cookieSid with
          | some sid => if sid.isEmpty then freshSid else sid
          | none => freshSid }
    let st1 : ServerState := { st with participants := alSet st.participants ws pd }
    let msgs : List (Nat × Msg) :=
      match sessionData with
      | some s =>
          match s.target with
          | some t =>
              if !t.isEmpty then [(ws, Msg.yourTarget t)]
              else if !s.name.isEmpty && !s.email.isEmpty then
                [(ws, Msg.nameOk s.name none)]
              else []
          | none =>
              if !s.name.isEmpty && !s.email.isEmpty then
                [(ws, Msg.nameOk s.name none)]
              else []
      | none => []
    (st1, msgs)

/-- `GET /api/session/:sessionId`: read-only session lookup. -/
def apiSession (st : ServerState) (sid : String) : ApiResp :=
  match alookup st.sessions sid with
  | some s => .ok s.name s.email s.target
  | none => .notFound

/-- The registry state of the C1 counterexample computations: three connected
participants, each backed by its undrawn session record. -/
def drawCexState : ServerState :=
  { participants := [(1, ⟨some "Alice", some "a@x.de", "sA"⟩),
                     (2, ⟨some "Bob", some "b@x.de", "sB"⟩),
                     (3, ⟨some "Carol", some "c@x.de", "sC"⟩)]
    masters := []
    sessions := [("sA", ⟨"Alice", "a@x.de", none⟩),
                 ("sB", ⟨"Bob", "b@x.de", none⟩),
                 ("sC", ⟨"Carol", "c@x.de", none⟩)] }

/-- The registry state of the C1 witness: two connected undrawn participants
plus one disconnected, already-drawn session record. -/
def drawWitnessState : ServerState :=
  { participants := [(1, ⟨some "Alice", some "a@x.de", "sA"⟩),
                     (2, ⟨some "Bob", some "b@x.de", "sB"⟩)]
    masters := []
    sessions := [("sA", ⟨"Alice", "a@x.de", none⟩),
                 ("sB", ⟨"Bob", "b@x.de", none⟩),
                 ("sC", ⟨"Carol", "c@x.de", some "Dave"⟩)] }

/-- The registry state of the C3 witness: one connected participant holding
the name, one other participant, and one undrawn session record. -/
def rmWitnessState : ServerState :=
  { participants := [(1, ⟨some "Alice", some "a@b.c", "sX"⟩),
                     (2, ⟨some "Bob", some "b@b.c", "sY"⟩)]
    masters := []
    sessions := [("sX", ⟨"Alice", "a@b.c", none⟩)] }

/-- The session store of the C5 witness: one drawn record, one undrawn
record. -/
def restoreWitnessState : ServerState :=
  { participants := []
    masters := []
    sessions := [("sA", ⟨"Alice", "a@x.de", some "Bob"⟩),
                 ("sB", ⟨"Bea", "b@x.de", none⟩)] }

theorem alookup_alUpdate {κ α : Type} [DecidableEq κ] (l : List (κ × α)) (k : κ)
    (f : α → α) (j : κ) :
    alookup (alUpdate l k f) j = if j = k then (alookup l j).map f else alookup l j := by
  induction l with
  | nil => simp [alUpdate, alookup]
  | cons p rest ih =>
      obtain ⟨pk, pv⟩ := p
      by_cases hpk : pk = k
      · subst hpk
        by_cases hj : pk = j
        · subst hj
          simp [alUpdate, alookup]
        · simp [alUpdate, alookup, hj, Ne.symm hj, ih]
      · by_cases hj : pk = j
        · subst hj
          simp [alUpdate, alookup, hpk, Ne.symm hpk]
        · simp [alUpdate, alookup, hpk, hj, ih]

theorem alookup_map_val {κ α β : Type} [DecidableEq κ] (l : List (κ × α)) (g : α → β)
    (k : κ) :
    alookup (l.map (fun q => (q.1, g q.2))) k = (alookup l k).map g := by
  induction l with
  | nil => simp [alookup]
  | cons p rest ih =>
      by_cases h : p.1 = k
      · simp [alookup, h]
      · simp [alookup, h, ih]

theorem alookup_mem {κ α : Type} [DecidableEq κ] :
    ∀ (l : List (κ × α)) (k : κ) (v : α), alookup l k = some v → (k, v) ∈ l
  | [], _, _, h => by simp [alookup] at h
  | (pk, pv) :: rest, k, v, h => by
      by_cases hk : pk = k
      · subst hk
        simp [alookup] at h
        subst h
        exact List.mem_cons_self _ _
      · simp [alookup, hk] at h
        exact List.mem_cons_of_mem _ (alookup_mem rest k v h)

theorem cons_set_perm {α : Type} (h y : α) :
    ∀ (t : List α) (k : Nat), t[k]? = some y → (h :: t).Perm (y :: t.set k h)
  | [], k, hk => by simp at hk
  | a :: t, 0, hk => by
      have ha : a = y := by simpa using hk
      subst ha
      simpa using List.Perm.swap a h t
  | a :: t, k + 1, hk => by
      simp only [List.getElem?_cons_succ] at hk
      have s1 : (h :: a :: t).Perm (a :: h :: t) := List.Perm.swap a h t
      have s2 : (a :: h :: t).Perm (a :: y :: t.set k h) :=
        (cons_set_perm h y t k hk).cons a
      have s3 : (a :: y :: t.set k h).Perm (y :: a :: t.set k h) :=
        List.Perm.swap y a (t.set k h)
      simpa using (s1.trans s2).trans s3

theorem set_set_perm {α : Type} :
    ∀ (l : List α) (i j : Nat) (x y : α), l[i]? = some x → l[j]? = some y →
      ((l.set i y).set j x).Perm l
  | [], _, _, _, _, hi, _ => by simp at hi
  | a :: t, 0, 0, x, y, hi, hj => by
      have hx : a = x := by simpa using hi
      have hy : a = y := by simpa using hj
      subst hx
      subst hy
      simp
  | a :: t, 0, j + 1, x, y, hi, hj => by
      have hx : a = x := by simpa using hi
      subst hx
      simp only [List.getElem?_cons_succ] at hj
      simpa using (cons_set_perm a y t j hj).symm
  | a :: t, i + 1, 0, x, y, hi, hj => by
      have hy : a = y := by simpa using hj
      subst hy
      simp only [List.getElem?_cons_succ] at hi
      simpa using (cons_set_perm a x t i hi).symm
  | a :: t, i + 1, j + 1, x, y, hi, hj => by
      simp only [List.getElem?_cons_succ] at hi hj
      simpa using (set_set_perm t i j x y hi hj).cons a

theorem listSwap_perm {α : Type} (l : List α) (i j : Nat) : (listSwap l i j).Perm l := by
  unfold listSwap
  cases hi : l[i]? with
  | none => exact List.Perm.refl l
  | some x =>
      cases hj : l[j]? with
      | none => exact List.Perm.refl l
      | some y => exact set_set_perm l i j x y hi hj

theorem shuffleAux_perm {α : Type} :
    ∀ (js : List Nat) (l : List α) (i : Nat), (shuffleAux l i js).Perm l
  | _, l, 0 => by simp [shuffleAux]
  | [], l, _ + 1 => by simp [shuffleAux]
  | j :: js, l, i + 1 => by
      rw [shuffleAux]
      exact (shuffleAux_perm js _ i).trans (listSwap_perm l (i + 1) j)

theorem shuffle_perm {α : Type} (l : List α) (js : List Nat) : (shuffle l js).Perm l :=
  shuffleAux_perm js l (l.length - 1)

theorem shuffle_length {α : Type} (l : List α) (js : List Nat) :
    (shuffle l js).length = l.length :=
  (shuffle_perm l js).length_eq

theorem insertLe_perm (x : String) : ∀ l : List String, (insertLe x l).Perm (x :: l)
  | [] => List.Perm.refl _
  | y :: ys => by
      rw [insertLe]
      by_cases h : strLeB x y = true
      · rw [if_pos h]
      · rw [if_neg h]
        exact ((insertLe_perm x ys).cons y).trans (List.Perm.swap x y ys)

theorem sortDe_perm : ∀ l : List String, (sortDe l).Perm l
  | [] => List.Perm.refl _
  | a :: l => by
      show (insertLe a (sortDe l)).Perm (a :: l)
      exact (insertLe_perm a (sortDe l)).trans ((sortDe_perm l).cons a)

theorem mem_sortDe {x : String} {l : List String} : x ∈ sortDe l ↔ x ∈ l :=
  (sortDe_perm l).mem_iff

theorem derangeLoop_some (names banned : List String) (rand : Nat → List Nat) :
    ∀ (fuel attempt : Nat) (m : List (String × String)),
      derangeLoop names banned rand attempt fuel = some m →
      ∃ js, attemptValid names (shuffle names js) banned = true ∧
        m = names.zip (shuffle names js)
  | 0, attempt, m, h => by simp [derangeLoop] at h
  | fuel + 1, attempt, m, h => by
      simp only [derangeLoop] at h
      by_cases hv : attemptValid names (shuffle names (rand attempt)) banned = true
      · rw [if_pos hv] at h
        exact ⟨rand attempt, hv, (Option.some.injEq _ _ ▸ h).symm⟩
      · rw [if_neg hv] at h
        exact derangeLoop_some names banned rand fuel (attempt + 1) m h

theorem createDerangement_some {names banned : List String} {rand : Nat → List Nat}
    {m : List (String × String)} (h : createDerangement names banned rand = some m) :
    2 ≤ names.length ∧ ∃ perm : List String, perm.Perm names ∧
      perm.length = names.length ∧ m = names.zip perm ∧
      attemptValid names perm banned = true := by
  unfold createDerangement at h
  by_cases hl : names.length < 2
  · rw [if_pos hl] at h
    exact absurd h (by simp)
  · rw [if_neg hl] at h
    obtain ⟨js, hv, hm⟩ := derangeLoop_some names banned rand 1000 0 m h
    exact ⟨by omega, shuffle names js, shuffle_perm _ _, shuffle_length _ _, hm, hv⟩

theorem attemptValid_pairs {names perm banned : List String}
    (h : attemptValid names perm banned = true) :
    ∀ pr ∈ names.zip perm, pr.2 ≠ pr.1 ∧
      banned.contains (strLower pr.1 ++ "|" ++ strLower pr.2) = false := by
  intro pr hpr
  have hp := List.all_eq_true.mp h pr hpr
  simp only [pairOk, Bool.and_eq_true, Bool.not_eq_true', beq_eq_false_iff_ne] at hp
  exact hp

theorem shuffle_pair {α : Type} (a b : α) (js : List Nat) :
    shuffle [a, b] js = [a, b] ∨ shuffle [a, b] js = [b, a] := by
  cases js with
  | nil => exact Or.inl rfl
  | cons j rest =>
      match j with
      | 0 => exact Or.inr rfl
      | 1 => exact Or.inl rfl
      | _ + 2 => exact Or.inl rfl

theorem derangeLoopPair (rand : Nat → List Nat) :
    ∀ (fuel attempt : Nat) (m : List (String × String)),
      derangeLoop ["Alice", "Bob"] [] rand attempt fuel = some m →
      m = [("Alice", "Bob"), ("Bob", "Alice")]
  | 0, attempt, m, h => by simp [derangeLoop] at h
  | fuel + 1, attempt, m, h => by
      simp only [derangeLoop] at h
      rcases shuffle_pair "Alice" "Bob" (rand attempt) with hs | hs <;> rw [hs] at h
      · rw [show attemptValid ["Alice", "Bob"] ["Alice", "Bob"] [] = false by decide] at h
        simp only [Bool.false_eq_true, if_false] at h
        exact derangeLoopPair rand fuel (attempt + 1) m h
      · rw [show attemptValid ["Alice", "Bob"] ["Bob", "Alice"] [] = true by decide] at h
        simp only [if_true] at h
        simpa [List.zip] using h.symm

theorem pairOk_nil (n p : String) : pairOk [] n p = !(p == n) := by
  simp [pairOk]

theorem attemptValid_nil (names perm : List String) :
    attemptValid names perm [] = attemptValidSimple names perm := by
  unfold attemptValid attemptValidSimple
  induction names.zip perm with
  | nil => rfl
  | cons pr l ih => simp [List.all_cons, ih, pairOk_nil]

theorem derangeLoopSimple_eq (names : List String) (rand : Nat → List Nat) :
    ∀ (fuel attempt : Nat),
      derangeLoopSimple names rand attempt fuel = derangeLoop names [] rand attempt fuel
  | 0, _ => by simp [derangeLoop, derangeLoopSimple]
  | fuel + 1, attempt => by
      simp only [derangeLoop, derangeLoopSimple, attemptValid_nil]
      rw [derangeLoopSimple_eq names rand fuel (attempt + 1)]

theorem onlineName_nonempty {p : Nat × ConnInfo} {n : String}
    (h : onlineName p = some n) : n.isEmpty = false := by
  unfold onlineName at h
  split at h
  · split at h
    · exact absurd h (by simp)
    · rename_i nm hnm hne
      obtain rfl : nm = n := by simpa using h
      simpa using hne
  · exact absurd h (by simp)

theorem foldl_addOfflineName_nonempty :
    ∀ (sessions : List (String × Session)) (acc : List String),
      (∀ n ∈ acc, n.isEmpty = false) →
      ∀ n ∈ sessions.foldl addOfflineName acc, n.isEmpty = false
  | [], _, hacc => hacc
  | q :: rest, acc, hacc => by
      refine foldl_addOfflineName_nonempty rest (addOfflineName acc q) ?_
      intro n hn
      unfold addOfflineName at hn
      by_cases h1 : (!q.2.name.isEmpty && !q.2.email.isEmpty && !(optTruthy q.2.target)) = true
      · rw [if_pos h1] at hn
        by_cases h2 : (acc.any fun x => strLower x = strLower q.2.name) = true
        · rw [if_pos h2] at hn
          exact hacc n hn
        · rw [if_neg h2] at hn
          rcases List.mem_append.mp hn with h | h
          · exact hacc n h
          · simp only [List.mem_singleton] at h
            subst h
            simp only [Bool.and_eq_true, Bool.not_eq_true'] at h1
            exact h1.1.1
      · rw [if_neg h1] at hn
        exact hacc n hn

theorem getParticipantNames_nonempty (st : ServerState) :
    ∀ n ∈ getParticipantNames st, n.isEmpty = false := by
  intro n hn
  rw [getParticipantNames, mem_sortDe] at hn
  refine foldl_addOfflineName_nonempty st.sessions _ ?_ n hn
  intro x hx
  obtain ⟨p, _, hp⟩ := List.mem_filterMap.mp hx
  exact onlineName_nonempty hp

theorem createDerangement_pair_mem {names banned : List String} {rand : Nat → List Nat}
    {m : List (String × String)} (h : createDerangement names banned rand = some m) :
    ∀ pr ∈ m, pr.1 ∈ names ∧ pr.2 ∈ names := by
  obtain ⟨-, perm, hperm, -, hm, -⟩ := createDerangement_some h
  intro pr hpr
  rw [hm] at hpr
  obtain ⟨h1, h2⟩ := List.of_mem_zip hpr
  exact ⟨h1, hperm.mem_iff.mp h2⟩

theorem drawOnlineStep_alookup (m : List (String × String))
    (sess : List (String × Session)) (p : Nat × ConnInfo) (sid : String) (s : Session)
    (hs : alookup sess sid = some s) :
    ∃ u, alookup (drawOnlineStep m sess p) sid = some u ∧ u.name = s.name ∧
      u.email = s.email ∧
      (u.target = s.target ∨ ∃ t, (∃ pr ∈ m, pr.2 = t) ∧ u.target = some t) := by
  unfold drawOnlineStep
  split
  · rename_i nm hnm
    split
    · exact ⟨s, hs, rfl, rfl, Or.inl rfl⟩
    · split
      · rename_i tgt hm
        split
        · rw [alookup_alUpdate]
          by_cases hsid : sid = p.2.sessionId
          · rw [if_pos hsid, hs]
            exact ⟨{ s with target := some tgt }, rfl, rfl, rfl,
              Or.inr ⟨tgt, ⟨(nm, tgt), alookup_mem m nm tgt hm, rfl⟩, rfl⟩⟩
          · rw [if_neg hsid]
            exact ⟨s, hs, rfl, rfl, Or.inl rfl⟩
        · exact ⟨s, hs, rfl, rfl, Or.inl rfl⟩
      · exact ⟨s, hs, rfl, rfl, Or.inl rfl⟩
  · exact ⟨s, hs, rfl, rfl, Or.inl rfl⟩

theorem onlineSessions_alookup (m : List (String × String)) :
    ∀ (ps : List (Nat × ConnInfo)) (sess : List (String × Session)) (sid : String)
      (s : Session), alookup sess sid = some s →
      ∃ u, alookup (onlineSessions m ps sess) sid = some u ∧ u.name = s.name ∧
        u.email = s.email ∧
        (u.target = s.target ∨ ∃ t, (∃ pr ∈ m, pr.2 = t) ∧ u.target = some t)
  | [], sess, sid, s, hs => ⟨s, hs, rfl, rfl, Or.inl rfl⟩
  | p :: ps, sess, sid, s, hs => by
      obtain ⟨u0, hu0, hn0, he0, ht0⟩ := drawOnlineStep_alookup m sess p sid s hs
      obtain ⟨u, hu, hn, he, ht⟩ :=
        onlineSessions_alookup m ps (drawOnlineStep m sess p) sid u0 hu0
      refine ⟨u, hu, hn.trans hn0, he.trans he0, ?_⟩
      rcases ht with ht | ⟨t, htm, htr⟩
      · rcases ht0 with ht0 | ⟨t, htm, htr⟩
        · exact Or.inl (ht.trans ht0)
        · exact Or.inr ⟨t, htm, ht.trans htr⟩
      · exact Or.inr ⟨t, htm, htr⟩

theorem drawOnlineStep_untouched (m : List (String × String))
    (sess : List (String × Session)) (p : Nat × ConnInfo) (sid : String)
    (h : p.2.sessionId ≠ sid) :
    alookup (drawOnlineStep m sess p) sid = alookup sess sid := by
  unfold drawOnlineStep
  split
  · split
    · rfl
    · split
      · split
        · rw [alookup_alUpdate, if_neg (fun hh => h hh.symm)]
        · rfl
      · rfl
  · rfl

theorem onlineSessions_untouched (m : List (String × String)) :
    ∀ (ps : List (Nat × ConnInfo)) (sess : List (String × Session)) (sid : String),
      (∀ p ∈ ps, p.2.sessionId ≠ sid) →
      alookup (onlineSessions m ps sess) sid = alookup sess sid
  | [], _, _, _ => rfl
  | p :: ps, sess, sid, h => by
      rw [show onlineSessions m (p :: ps) sess =
            onlineSessions m ps (drawOnlineStep m sess p) from rfl]
      rw [onlineSessions_untouched m ps _ sid (fun q hq => h q (List.mem_cons_of_mem p hq))]
      exact drawOnlineStep_untouched m sess p sid (h p (List.mem_cons_self p ps))

theorem session_eq_of_fields {a b : Session} (h1 : a.name = b.name)
    (h2 : a.email = b.email) (h3 : a.target = b.target) : a = b := by
  cases a
  cases b
  simp_all

theorem offlinePass_alookup (m : List (String × String))
    (sess : List (String × Session)) (sid : String) :
    alookup (offlinePass m sess) sid = (alookup sess sid).map (offlineFix m) :=
  alookup_map_val sess (offlineFix m) sid

theorem handleSetName_error_cases (st : ServerState) (ws : Nat) (name email : String)
    (h : (strTrim name).isEmpty = true ∨ 40 < (strTrim name).length ∨
      (strTrim email).isEmpty = true ∨ isValidEmail (strTrim email) = false ∨
      isNameTaken st (strTrim name) = true) :
    ∃ msg, handleSetName st ws name email = (st, [(ws, Msg.error msg)]) := by
  unfold handleSetName
  by_cases h1 : (strTrim name).isEmpty = true
  · rw [if_pos h1]
    exact ⟨_, rfl⟩
  · rw [if_neg h1]
    by_cases h2 : 40 < (strTrim name).length
    · rw [if_pos h2]
      exact ⟨_, rfl⟩
    · rw [if_neg h2]
      by_cases h3 : (strTrim email).isEmpty = true
      · rw [if_pos h3]
        exact ⟨_, rfl⟩
      · rw [if_neg h3]
        by_cases h4 : isValidEmail (strTrim email) = false
        · rw [if_pos (by simp [h4])]
          exact ⟨_, rfl⟩
        · rw [if_neg (by simp [Bool.not_eq_true', h4])]
          by_cases h5 : isNameTaken st (strTrim name) = true
          · rw [if_pos h5]
            exact ⟨_, rfl⟩
          · rcases h with h | h | h | h | h
            exacts [absurd h h1, absurd h h2, absurd h h3, absurd h h4, absurd h h5]

theorem parseConstraintLine_some {line : String} {pr : String × String}
    (h : parseConstraintLine line = some pr) :
    (strTrim line).isEmpty = false ∧ (strTrim line).data.head? ≠ some '#' ∧
    ∃ p0 p1, strSplit (strTrim line) (· = ',') = [p0, p1] ∧
      (strTrim p0).isEmpty = false ∧ (strTrim p1).isEmpty = false ∧
      pr = (strLower (strTrim p0), strLower (strTrim p1)) := by
  unfold parseConstraintLine at h
  by_cases h1 : (strTrim line).isEmpty = true
  · rw [if_pos h1] at h
    exact absurd h (by simp)
  · rw [if_neg h1] at h
    by_cases h2 : (strTrim line).data.head? = some '#'
    · rw [if_pos h2] at h
      exact absurd h (by simp)
    · rw [if_neg h2] at h
      refine ⟨by simpa using h1, h2, ?_⟩
      split at h
      · rename_i q0 q1 hsp
        by_cases h3 : (strTrim q0).isEmpty = true
        · rw [if_pos h3] at h
          exact absurd h (by simp)
        · rw [if_neg h3] at h
          by_cases h4 : (strTrim q1).isEmpty = true
          · rw [if_pos h4] at h
            exact absurd h (by simp)
          · rw [if_neg h4] at h
            exact ⟨q0, q1, hsp, by simpa using h3, by simpa using h4,
              by simpa using h.symm⟩
      · exact absurd h (by simp)

theorem parseConstraintLine_of {line p0 p1 : String}
    (hsplit : strSplit (strTrim line) (· = ',') = [p0, p1])
    (h1 : (strTrim line).isEmpty = false) (h2 : (strTrim line).data.head? ≠ some '#')
    (h3 : (strTrim p0).isEmpty = false) (h4 : (strTrim p1).isEmpty = false) :
    parseConstraintLine line = some (strLower (strTrim p0), strLower (strTrim p1)) := by
  unfold parseConstraintLine
  rw [if_neg (by simp [h1]), if_neg h2, hsplit]
  show (if (strTrim p0).isEmpty = true then none
        else if (strTrim p1).isEmpty = true then none
        else some (strLower (strTrim p0), strLower (strTrim p1)))
      = some (strLower (strTrim p0), strLower (strTrim p1))
  rw [if_neg (by simp [h3]), if_neg (by simp [h4])]

/-- Claim C2: for every input list of names and forbidden set, `solve`
(`createDerangement`) returns no solution when fewer than 2 names are given;
otherwise it returns either no solution or a mapping whose keys are exactly
the (pairwise distinct) names and whose values are a permutation of them
without repetition — a bijection of the name set — with zero fixed points and
no forbidden ordered pair under case-insensitive comparison; never a
partially-valid mapping. -/
theorem derangement_solver_sound (names banned : List String) (rand : Nat → List Nat)
    (hnd : names.Nodup) :
    (names.length < 2 → createDerangement names banned rand = none) ∧
    (∀ m, createDerangement names banned rand = some m →
      m.map Prod.fst = names ∧ (m.map Prod.snd).Perm names ∧ (m.map Prod.snd).Nodup ∧
      ∀ pr ∈ m, pr.2 ≠ pr.1 ∧
        banned.contains (strLower pr.1 ++ "|" ++ strLower pr.2) = false) := by
  constructor
  · intro h
    unfold createDerangement
    rw [if_pos h]
  · intro m hm
    obtain ⟨hlen, perm, hperm, hplen, hzip, hvalid⟩ := createDerangement_some hm
    subst hzip
    refine ⟨List.map_fst_zip names perm (le_of_eq hplen.symm), ?_, ?_, ?_⟩
    · rw [List.map_snd_zip names perm (le_of_eq hplen)]
      exact hperm
    · rw [List.map_snd_zip names perm (le_of_eq hplen)]
      exact hperm.nodup_iff.mpr hnd
    · exact attemptValid_pairs hvalid

/-- Witness for C2: a singleton input yields no solution, and on the concrete
input `["Alice", "Bob"]` with one random swap at index 0 the returned mapping
satisfies every clause of the claim. -/
theorem derangement_solver_sound_witness :
    createDerangement ["Alice"] [] (fun _ => []) = none ∧
    ([("Alice", "Bob"), ("Bob", "Alice")].map Prod.fst = ["Alice", "Bob"] ∧
      ([("Alice", "Bob"), ("Bob", "Alice")].map Prod.snd).Perm ["Alice", "Bob"] ∧
      ([("Alice", "Bob"), ("Bob", "Alice")].map Prod.snd).Nodup ∧
      ∀ pr ∈ [("Alice", "Bob"), ("Bob", "Alice")], pr.2 ≠ pr.1 ∧
        List.contains [] (strLower pr.1 ++ "|" ++ strLower pr.2) = false) :=
  ⟨(derangement_solver_sound ["Alice"] [] (fun _ => []) (by decide)).1 (by decide),
   (derangement_solver_sound ["Alice", "Bob"] [] (fun _ => [0]) (by decide)).2
     [("Alice", "Bob"), ("Bob", "Alice")] (by decide)⟩

/-- Claim C8: on the two-element name list `["Alice", "Bob"]` with an empty
forbidden set, any mapping returned by the solver is exactly the mutual swap. -/
theorem two_participant_draw_unique (rand : Nat → List Nat)
    (m : List (String × String))
    (h : createDerangement ["Alice", "Bob"] [] rand = some m) :
    m = [("Alice", "Bob"), ("Bob", "Alice")] := by
  unfold createDerangement at h
  rw [if_neg (by decide)] at h
  exact derangeLoopPair rand 1000 0 m h

/-- Witness for C8: a concrete random sequence on which the solver succeeds,
and the theorem pins the result to the mutual swap. -/
theorem two_participant_draw_unique_witness :
    ∃ m, createDerangement ["Alice", "Bob"] [] (fun _ => [0]) = some m ∧
      m = [("Alice", "Bob"), ("Bob", "Alice")] :=
  ⟨[("Alice", "Bob"), ("Bob", "Alice")], by decide,
    two_participant_draw_unique (fun _ => [0]) _ (by decide)⟩

/-- Claim C9: a `remove_name` or `start_draw` message arriving on a connection
whose role is participant leaves the whole registry state unchanged, triggers
no broadcast and produces no reply. -/
theorem privileged_commands_participant_noop (st : ServerState) (ws : Nat)
    (banned : List String) (rand : Nat → List Nat) (n : String) :
    handleMessage st ws "participant" (ClientMsg.removeName n) banned rand = (st, []) ∧
    handleMessage st ws "participant" ClientMsg.startDraw banned rand = (st, []) :=
  ⟨rfl, rfl⟩

/-- Claim C10: the reduced deployment's solver equals the full deployment's
solver run with an empty forbidden set: both accept exactly the same
permutations and, on the same random choices, return the same mapping or both
return no solution. -/
theorem reduced_solver_equivalent (names : List String) (rand : Nat → List Nat) :
    (∀ perm : List String, attemptValidSimple names perm = attemptValid names perm []) ∧
    createDerangementSimple names rand = createDerangement names [] rand := by
  refine ⟨fun perm => (attemptValid_nil names perm).symm, ?_⟩
  unfold createDerangement createDerangementSimple
  by_cases h : names.length < 2
  · rw [if_pos h, if_pos h]
  · rw [if_neg h, if_neg h, derangeLoopSimple_eq]

/-- Claim C1 (amended): after a successful draw, every session record that was
eligible through the session store (undrawn, with name and e-mail set, name in
the committed mapping) has its `assignedTarget` set to a nonempty name, and
re-invoking the draw command does not alter any already-assigned session
record that is not bound to a live connection. The claim as stated — that an
already-set `assignedTarget` is never modified by any later operation — fails,
because a participant who stays connected after a draw remains eligible and is
re-assigned by the next draw; see the counterexample. -/
theorem start_draw_assignment (st : ServerState) (ws : Nat) (banned : List String)
    (rand : Nat → List Nat) (m : List (String × String))
    (hm : createDerangement (getParticipantNames st) banned rand = some m) :
    (∀ sid s, alookup st.sessions sid = some s → s.name.isEmpty = false →
      s.email.isEmpty = false → optTruthy s.target = false →
      (alookup m s.name).isSome →
      ∃ t, alookup ((handleStartDraw st ws banned rand).1).sessions sid =
          some { s with target := some t } ∧ t.isEmpty = false) ∧
    (∀ sid s, alookup st.sessions sid = some s → optTruthy s.target = true →
      (∀ p ∈ st.participants, p.2.sessionId ≠ sid) →
      alookup ((handleStartDraw st ws banned rand).1).sessions sid = some s) := by
  have hlen : ¬(getParticipantNames st).length < 2 := by
    intro hl
    rw [show createDerangement (getParticipantNames st) banned rand = none by
      unfold createDerangement; rw [if_pos hl]] at hm
    exact absurd hm (by simp)
  have hst : ((handleStartDraw st ws banned rand).1).sessions =
      offlinePass m (onlineSessions m st.participants st.sessions) := by
    simp only [handleStartDraw]
    rw [if_neg hlen, hm]
  have hvals : ∀ t, (∃ pr ∈ m, pr.2 = t) → t.isEmpty = false := by
    rintro t ⟨pr, hpr, rfl⟩
    exact getParticipantNames_nonempty st pr.2 (createDerangement_pair_mem hm pr hpr).2
  constructor
  · intro sid s hs hname hemail htarget hmem
    obtain ⟨u, hu, hun, hue, hut⟩ :=
      onlineSessions_alookup m st.participants st.sessions sid s hs
    rw [hst, offlinePass_alookup, hu, Option.map_some']
    rcases hut with hut | ⟨t, htm, hut⟩
    · obtain ⟨tgt, htgt⟩ := Option.isSome_iff_exists.mp hmem
      refine ⟨tgt, ?_, hvals tgt ⟨(s.name, tgt), alookup_mem m s.name tgt htgt, rfl⟩⟩
      have hfix : offlineFix m u = ⟨s.name, s.email, some tgt⟩ := by
        unfold offlineFix
        rw [hun, hue, hut, if_pos (by simp [hname, hemail, htarget]), htgt]
      rw [hfix]
    · have htne : t.isEmpty = false := hvals t htm
      refine ⟨t, ?_, htne⟩
      have hfix : offlineFix m u = u := by
        unfold offlineFix
        rw [if_neg (by simp [hut, optTruthy, htne])]
      rw [hfix]
      exact congrArg some (session_eq_of_fields hun hue hut)
  · intro sid s hs htarget hnp
    rw [hst, offlinePass_alookup,
      onlineSessions_untouched m st.participants st.sessions sid hnp, hs,
      Option.map_some']
    have hfix : offlineFix m s = s := by
      unfold offlineFix
      rw [if_neg (by simp [htarget])]
    rw [hfix]

/-- Counterexample to C1 as stated: after a first committed draw sets session
`sA`'s target to `"Bob"`, re-invoking the draw command while the three
participants are still connected overwrites that already-set target with
`"Carol"` — `assignedTarget` is modified by a later draw. -/
theorem start_draw_reassigns_counterexample :
    alookup ((handleStartDraw drawCexState 0 [] (fun _ => [0, 0])).1).sessions "sA"
        = some ⟨"Alice", "a@x.de", some "Bob"⟩ ∧
    alookup ((handleStartDraw (handleStartDraw drawCexState 0 [] (fun _ => [0, 0])).1
        0 [] (fun _ => [1, 0])).1).sessions "sA"
        = some ⟨"Alice", "a@x.de", some "Carol"⟩ := by
  constructor <;> decide

/-- Witness for C1 (amended): on a concrete state, a successful draw sets the
eligible record `sA` and leaves the disconnected drawn record `sC` untouched. -/
theorem start_draw_assignment_witness :
    (∃ t, alookup ((handleStartDraw drawWitnessState 9 [] (fun _ => [0])).1).sessions "sA"
        = some { (⟨"Alice", "a@x.de", none⟩ : Session) with target := some t } ∧
        t.isEmpty = false) ∧
    alookup ((handleStartDraw drawWitnessState 9 [] (fun _ => [0])).1).sessions "sC"
        = some ⟨"Carol", "c@x.de", some "Dave"⟩ :=
  ⟨(start_draw_assignment drawWitnessState 9 [] (fun _ => [0])
      [("Alice", "Bob"), ("Bob", "Alice")] (by decide)).1 "sA" ⟨"Alice", "a@x.de", none⟩
      (by decide) (by decide) (by decide) (by decide) (by decide),
   (start_draw_assignment drawWitnessState 9 [] (fun _ => [0])
      [("Alice", "Bob"), ("Bob", "Alice")] (by decide)).2 "sC" ⟨"Carol", "c@x.de", some "Dave"⟩
      (by decide) (by decide) (by decide)⟩

/-- Claim C3 (amended): `removeName` clears the name and contact on every live
connection bound to the name case-insensitively and sends each such connection
a reset notification, preserves every other connection, and deletes every
session record matching the name — including, contrary to the claim as
stated, records whose `assignedTarget` is already set (see the
counterexample); removing an absent name changes no registry state. -/
theorem remove_name_spec (st : ServerState) (name : String) :
    (∀ p ∈ st.participants,
      nameMatches p.2.name (strLower (strTrim name)) = true →
      (p.1, { p.2 with name := none, email := none })
          ∈ (handleRemoveName st name).1.participants ∧
      (p.1, Msg.reset) ∈ (handleRemoveName st name).2) ∧
    (∀ p ∈ st.participants,
      nameMatches p.2.name (strLower (strTrim name)) = false →
      p ∈ (handleRemoveName st name).1.participants) ∧
    (∀ q, q ∈ (handleRemoveName st name).1.sessions ↔
      q ∈ st.sessions ∧
      (!q.2.name.isEmpty && decide (strLower q.2.name = strLower (strTrim name))) = false) ∧
    ((∀ p ∈ st.participants,
        nameMatches p.2.name (strLower (strTrim name)) = false) →
      (∀ q ∈ st.sessions,
        (!q.2.name.isEmpty && decide (strLower q.2.name = strLower (strTrim name))) = false) →
      (handleRemoveName st name).1 = st) := by
  simp only [handleRemoveName]
  refine ⟨?_, ?_, ?_, ?_⟩
  · intro p hp hmatch
    constructor
    · exact List.mem_map.mpr ⟨p, hp, by rw [if_pos hmatch]⟩
    · exact List.mem_append.mpr (Or.inl
        (List.mem_filterMap.mpr ⟨p, hp, by rw [if_pos hmatch]⟩))
  · intro p hp hmatch
    exact List.mem_map.mpr ⟨p, hp, by rw [if_neg (by simp [hmatch])]⟩
  · intro q
    simp only [List.mem_filter, Bool.not_eq_true']
  · intro h1 h2
    have hp : st.participants.map (fun p =>
        if nameMatches p.2.name (strLower (strTrim name)) then
          (p.1, { p.2 with name := none, email := none }) else p) = st.participants := by
      rw [List.map_congr_left (g := id) (fun p hpmem => by
        rw [if_neg (by simp [h1 p hpmem])]
        rfl)]
      exact List.map_id _
    have hs : st.sessions.filter (fun q =>
        !(!q.2.name.isEmpty && decide (strLower q.2.name = strLower (strTrim name))))
          = st.sessions := by
      refine List.filter_eq_self.mpr ?_
      intro q hqmem
      simp [h2 q hqmem]
    rw [hp, hs]

/-- Counterexample to C3 as stated: a session record whose `assignedTarget` is
already set is nevertheless deleted by `removeName`. -/
theorem remove_name_deletes_drawn_counterexample :
    alookup (handleRemoveName
        ⟨[], [], [("s1", ⟨"Alice", "a@b.c", some "Bob"⟩)]⟩ "Alice").1.sessions "s1"
      = none := by decide

/-- Witness for C3 (amended): removing `"Alice"` clears and resets exactly the
matching live connection, and removing the absent name `"Zoe"` changes no
registry state. -/
theorem remove_name_spec_witness :
    ((1, (⟨none, none, "sX"⟩ : ConnInfo))
        ∈ (handleRemoveName rmWitnessState "Alice").1.participants ∧
      (1, Msg.reset) ∈ (handleRemoveName rmWitnessState "Alice").2) ∧
    (2, (⟨some "Bob", some "b@b.c", "sY"⟩ : ConnInfo))
        ∈ (handleRemoveName rmWitnessState "Alice").1.participants ∧
    (handleRemoveName rmWitnessState "Zoe").1 = rmWitnessState :=
  ⟨(remove_name_spec rmWitnessState "Alice").1
      (1, ⟨some "Alice", some "a@b.c", "sX"⟩) (by decide) (by decide),
   (remove_name_spec rmWitnessState "Alice").2.1
      (2, ⟨some "Bob", some "b@b.c", "sY"⟩) (by decide) (by decide),
   (remove_name_spec rmWitnessState "Zoe").2.2.2 (by decide) (by decide)⟩

/-- Claim C7: whenever a `set_name` claim is rejected for a validation reason
(empty trimmed name, trimmed name longer than 40 characters, empty or
malformed contact address, or duplicate name), exactly one error message is
sent to the originating connection and the registry is unchanged: no
connection identity is modified and no session record created or updated. -/
theorem set_name_rejection_frame (st : ServerState) (ws : Nat) (name email : String)
    (h : (strTrim name).isEmpty = true ∨ 40 < (strTrim name).length ∨
      (strTrim email).isEmpty = true ∨ isValidEmail (strTrim email) = false ∨
      isNameTaken st (strTrim name) = true) :
    ∃ msg, handleSetName st ws name email = (st, [(ws, Msg.error msg)]) :=
  handleSetName_error_cases st ws name email h

/-- Witness for C7: a 41-character name is rejected on an empty registry,
which stays unchanged. -/
theorem set_name_rejection_frame_witness :
    ∃ msg, handleSetName ⟨[], [], []⟩ 5
        "AAAAAAAAAAAAAAAAAAAAAAAAAAAAAAAAAAAAAAAAA" "a@b.c"
      = (⟨[], [], []⟩, [(5, Msg.error msg)]) :=
  set_name_rejection_frame ⟨[], [], []⟩ 5
    "AAAAAAAAAAAAAAAAAAAAAAAAAAAAAAAAAAAAAAAAA" "a@b.c"
    (Or.inr (Or.inl (by decide)))

/-- Claim C4: a `set_name` claim whose trimmed name equals, case-insensitively,
the name of an existing active-undrawn participant fails with a validation
error and leaves the registry unchanged — both when the holder is bound to a
live connection and when the holder exists only as an undrawn session
record. -/
theorem duplicate_name_rejected (st : ServerState) (ws : Nat) (name email : String)
    (h : (∃ p ∈ st.participants, ∃ n, p.2.name = some n ∧ n.isEmpty = false ∧
            strLower n = strLower (strTrim name)) ∨
         (∃ q ∈ st.sessions, q.2.name.isEmpty = false ∧
            strLower q.2.name = strLower (strTrim name) ∧
            optTruthy q.2.target = false)) :
    ∃ msg, handleSetName st ws name email = (st, [(ws, Msg.error msg)]) := by
  refine handleSetName_error_cases st ws name email (Or.inr (Or.inr (Or.inr (Or.inr ?_))))
  unfold isNameTaken
  rcases h with ⟨p, hp, n, hn, hne, hl⟩ | ⟨q, hq, hne, hl, hundrawn⟩
  · simp only [Bool.or_eq_true]
    refine Or.inl ?_
    rw [List.any_eq_true]
    refine ⟨p, hp, ?_⟩
    rw [hn]
    simp [hne, hl]
  · simp only [Bool.or_eq_true]
    refine Or.inr ?_
    rw [List.any_eq_true]
    refine ⟨q, hq, ?_⟩
    simp [hne, hl, hundrawn]

/-- Witness for C4: claiming `" ALICE "` fails both against a live connection
holding `"Alice"` and against an undrawn session record holding `"Alice"`,
each time leaving the registry unchanged. -/
theorem duplicate_name_rejected_witness :
    (∃ msg, handleSetName ⟨[(1, ⟨some "Alice", some "a@b.c", "s1"⟩)], [], []⟩ 7
        " ALICE " "x@y.z"
      = (⟨[(1, ⟨some "Alice", some "a@b.c", "s1"⟩)], [], []⟩, [(7, Msg.error msg)])) ∧
    (∃ msg, handleSetName ⟨[], [], [("s1", ⟨"Alice", "a@b.c", none⟩)]⟩ 7
        " ALICE " "x@y.z"
      = (⟨[], [], [("s1", ⟨"Alice", "a@b.c", none⟩)]⟩, [(7, Msg.error msg)])) :=
  ⟨duplicate_name_rejected _ 7 " ALICE " "x@y.z"
      (Or.inl ⟨(1, ⟨some "Alice", some "a@b.c", "s1"⟩), by decide, "Alice", rfl,
        by decide, by decide⟩),
   duplicate_name_rejected _ 7 " ALICE " "x@y.z"
      (Or.inr ⟨("s1", ⟨"Alice", "a@b.c", none⟩), by decide, by decide, by decide,
        by decide⟩)⟩

/-- Claim C5: session restoration. For a stored record with `assignedTarget`
set, both the reconnect path and the lookup endpoint report that committed
target, and reconnecting never modifies the session store, so repeated lookups
return the identical committed value; for a record with a name but no target,
the reconnecting client receives a `name_ok` confirmation; a token with no
stored record yields a not-found result and no restoration message. -/
theorem session_restore_spec (st : ServerState) (ws : Nat) (sid fresh : String)
    (hsid : sid.isEmpty = false) :
    (∀ s, alookup st.sessions sid = some s → s.name.isEmpty = false →
      s.email.isEmpty = false →
      (∀ t, s.target = some t → t.isEmpty = false →
        handleConnect st ws "participant" (some sid) fresh
          = (ServerState.mk
               (alSet st.participants ws ⟨some s.name, some s.email, sid⟩)
               st.masters st.sessions,
             [(ws, Msg.yourTarget t)]) ∧
        apiSession st sid = ApiResp.ok s.name s.email (some t)) ∧
      (s.target = none →
        handleConnect st ws "participant" (some sid) fresh
          = (ServerState.mk
               (alSet st.participants ws ⟨some s.name, some s.email, sid⟩)
               st.masters st.sessions,
             [(ws, Msg.nameOk s.name none)]))) ∧
    ((handleConnect st ws "participant" (some sid) fresh).1.sessions = st.sessions) ∧
    (alookup st.sessions sid = none →
      apiSession st sid = ApiResp.notFound ∧
      handleConnect st ws "participant" (some sid) fresh
        = (ServerState.mk (alSet st.participants ws ⟨none, none, sid⟩)
             st.masters st.sessions,
           [])) := by
  refine ⟨?_, ?_, ?_⟩
  · intro s hs hname hemail
    constructor
    · intro t ht htne
      constructor
      · simp only [handleConnect]
        rw [if_neg (by decide)]
        simp [hs, hsid, hname, hemail, ht, htne]
      · unfold apiSession
        rw [hs]
        show ApiResp.ok s.name s.email s.target = ApiResp.ok s.name s.email (some t)
        rw [ht]
    · intro ht
      simp only [handleConnect]
      rw [if_neg (by decide)]
      simp [hs, hsid, hname, hemail, ht]
  · simp only [handleConnect]
    rw [if_neg (by decide)]
  · intro hnone
    constructor
    · unfold apiSession
      rw [hnone]
    · simp only [handleConnect]
      rw [if_neg (by decide)]
      simp [hnone, hsid]

/-- Witness for C5: a drawn record restores `your_target "Bob"` and the lookup
endpoint reports the same committed value; an undrawn record restores
`name_ok`; an unknown token yields not-found. -/
theorem session_restore_spec_witness :
    (handleConnect restoreWitnessState 4 "participant" (some "sA") "f1"
        = (ServerState.mk
             (alSet restoreWitnessState.participants 4 ⟨some "Alice", some "a@x.de", "sA"⟩)
             restoreWitnessState.masters restoreWitnessState.sessions,
           [(4, Msg.yourTarget "Bob")]) ∧
      apiSession restoreWitnessState "sA" = ApiResp.ok "Alice" "a@x.de" (some "Bob")) ∧
    (handleConnect restoreWitnessState 4 "participant" (some "sB") "f1"
        = (ServerState.mk
             (alSet restoreWitnessState.participants 4 ⟨some "Bea", some "b@x.de", "sB"⟩)
             restoreWitnessState.masters restoreWitnessState.sessions,
           [(4, Msg.nameOk "Bea" none)])) ∧
    (apiSession restoreWitnessState "sZ" = ApiResp.notFound ∧
      handleConnect restoreWitnessState 4 "participant" (some "sZ") "f1"
        = (ServerState.mk
             (alSet restoreWitnessState.participants 4 ⟨none, none, "sZ"⟩)
             restoreWitnessState.masters restoreWitnessState.sessions,
           [])) :=
  ⟨(session_restore_spec restoreWitnessState 4 "sA" "f1" (by decide)).1
      ⟨"Alice", "a@x.de", some "Bob"⟩ (by decide) (by decide) (by decide)
      |>.1 "Bob" rfl (by decide),
   (session_restore_spec restoreWitnessState 4 "sB" "f1" (by decide)).1
      ⟨"Bea", "b@x.de", none⟩ (by decide) (by decide) (by decide)
      |>.2 rfl,
   (session_restore_spec restoreWitnessState 4 "sZ" "f1" (by decide)).2.2 (by decide)⟩

/-- Claim C6: constraint loading. An absent source yields an empty set rather
than an error; every pair produced by a load comes from a line that is neither
blank nor a comment and splits on the comma into exactly two fields with
nonempty trims, and the pair is the lowercased trimmed fields; conversely,
every such well-formed line contributes its pair — blank lines, comment lines
and malformed lines (wrong field count or an empty field) are silently
dropped. -/
theorem constraints_load_spec :
    readConstraintsFile none = [] ∧
    (∀ raw pr, pr ∈ readConstraintsFile (some raw) →
      ∃ line, line ∈ splitLines raw ∧ (strTrim line).isEmpty = false ∧
        (strTrim line).data.head? ≠ some '#' ∧
        ∃ p0 p1, strSplit (strTrim line) (· = ',') = [p0, p1] ∧
          (strTrim p0).isEmpty = false ∧ (strTrim p1).isEmpty = false ∧
          pr = (strLower (strTrim p0), strLower (strTrim p1))) ∧
    (∀ raw line, line ∈ splitLines raw →
      ∀ p0 p1, strSplit (strTrim line) (· = ',') = [p0, p1] →
      (strTrim line).isEmpty = false → (strTrim line).data.head? ≠ some '#' →
      (strTrim p0).isEmpty = false → (strTrim p1).isEmpty = false →
      (strLower (strTrim p0), strLower (strTrim p1)) ∈ readConstraintsFile (some raw)) := by
  refine ⟨rfl, ?_, ?_⟩
  · intro raw pr hpr
    obtain ⟨line, hline, hparse⟩ := List.mem_filterMap.mp hpr
    obtain ⟨h1, h2, p0, p1, hsplit, h3, h4, hpr⟩ := parseConstraintLine_some hparse
    exact ⟨line, hline, h1, h2, p0, p1, hsplit, h3, h4, hpr⟩
  · intro raw line hline p0 p1 hsplit h1 h2 h3 h4
    exact List.mem_filterMap.mpr ⟨line, hline,
      parseConstraintLine_of hsplit h1 h2 h3 h4⟩

/-- Witness for C6: the absent file yields the empty set, and on a concrete
source the well-formed line contributes its lowercased pair. -/
theorem constraints_load_spec_witness :
    readConstraintsFile none = [] ∧
    ("alice", "bob") ∈ readConstraintsFile (some "# comment\nAlice , Bob\nmalformed") :=
  ⟨constraints_load_spec.1,
   constraints_load_spec.2.2 "# comment\nAlice , Bob\nmalformed" "Alice , Bob"
     (by decide) "Alice " " Bob" (by decide) (by decide) (by decide) (by decide)
     (by decide)⟩

end Losverteilung
